import Mathlib

/-!
Verification of the frame-compositing and batch-export core of `frame-tiala`.

This file gives a shallow embedding, in Lean 4, of the core logic of
`src/src/App.js` (the `PhotoFrameSite` component): the geometric compositing
routine `drawFrameToCanvas`, the blob-producing wrapper `drawToBlob`, the
file-naming logic of `downloadSingle` and `downloadZip`, and the
length-dispatching auto-download effect (`exportAll`).

JavaScript numbers are modelled by `ℚ` (all the arithmetic of the
compositor — `/`, `*`, `min`, `Math.round` — is exact rational arithmetic
on the inputs of interest), `Math.round` by `jsRound`, strings by Lean
`String`, the DOM canvas store by an explicit list of canvas states, and
the fallible `canvas.toBlob` encoder by a function-valued parameter
returning `Option Blob`.
-/

namespace FrameTiala

/-- JavaScript `Math.round`: round half toward positive infinity,
i.e. `⌊q + 1/2⌋`. -/
def jsRound (q : ℚ) : ℤ := ⌊q + 1/2⌋

/-- A decoded raster image: the core only reads its integer `width` and
`height` (`img.width`, `img.height` in `drawFrameToCanvas`). -/
structure RasterImage where
  width : ℕ
  height : ℕ
deriving Repr, DecidableEq

/-- Output encoding selected by the `format` state: `'jpeg'` or `'png'`. -/
inductive OutputFormat where
  | jpeg
  | png
deriving Repr, DecidableEq

/-- Embedding of `const ext = format === 'jpeg' ? 'jpg' : 'png'` (lines 95, 112). -/
def extOf : OutputFormat → String
  | .jpeg => "jpg"
  | .png => "png"

/-- Embedding of `const mime = format === 'jpeg' ? 'image/jpeg' : 'image/png'` (line 80). -/
def mimeOf : OutputFormat → String
  | .jpeg => "image/jpeg"
  | .png => "image/png"

/-- The layout parameters of one compositing call: the component state
`framePct`, `outputSize`, `format`. -/
structure LayoutParams where
  framePct : ℚ
  outputSize : ℕ
  format : OutputFormat
deriving Repr, DecidableEq

/-- Embedding of `const border = Math.round((framePct / 100) * size)` (line 62). -/
def borderOf (framePct : ℚ) (size : ℕ) : ℤ :=
  jsRound (framePct / 100 * size)

/-- Embedding of `const innerSize = size - border * 2` (line 63). -/
def innerSizeOf (framePct : ℚ) (size : ℕ) : ℤ :=
  (size : ℤ) - borderOf framePct size * 2

/-- The geometric result of `drawFrameToCanvas` (lines 53–71): the canvas
dimensions it sets and the placement rectangle it passes to `drawImage`. -/
structure Layout where
  canvasWidth : ℕ
  canvasHeight : ℕ
  border : ℤ
  innerSize : ℤ
  scale : ℚ
  w : ℚ
  h : ℚ
  x : ℚ
  y : ℚ
deriving Repr, DecidableEq

/-- Shallow embedding of `drawFrameToCanvas` (lines 53–71):

    const size = outputSize
    canvas.width = size; canvas.height = size
    const border = Math.round((framePct / 100) * size)
    const innerSize = size - border * 2
    const scale = Math.min(innerSize / img.width, innerSize / img.height)
    const w = img.width * scale
    const h = img.height * scale
    const x = border + (innerSize - w) / 2
    const y = border + (innerSize - h) / 2
    ctx.drawImage(img, x, y, w, h)
-/
def drawFrameToCanvas (p : LayoutParams) (img : RasterImage) : Layout :=
  let size := p.outputSize
  let border := borderOf p.framePct size
  let innerSize := innerSizeOf p.framePct size
  let scale : ℚ := min ((innerSize : ℚ) / img.width) ((innerSize : ℚ) / img.height)
  let w : ℚ := img.width * scale
  let h : ℚ := img.height * scale
  { canvasWidth := size
    canvasHeight := size
    border := border
    innerSize := innerSize
    scale := scale
    w := w
    h := h
    x := (border : ℚ) + ((innerSize : ℚ) - w) / 2
    y := (border : ℚ) + ((innerSize : ℚ) - h) / 2 }

/-- What a canvas point shows after `fillRect(0,0,size,size)` with `#ffffff`
followed by `drawImage(img, x, y, w, h)`: the image covers exactly the
half-open placement rectangle, everything else stays the white fill. -/
inductive Pixel where
  | white
  | fromImage
deriving Repr, DecidableEq

/-- Colour of the composed canvas at point `(i, j)`. -/
def canvasPixel (L : Layout) (i j : ℚ) : Pixel :=
  if L.x ≤ i ∧ i < L.x + L.w ∧ L.y ≤ j ∧ j < L.y + L.h then
    .fromImage
  else
    .white

/-! Canvas store, blobs and the encoder. -/

/-- The observable state of one DOM canvas: its dimensions and what has
been composed onto it (nothing, for a freshly created canvas). -/
structure CanvasState where
  width : ℕ
  height : ℕ
  drawn : Option (LayoutParams × RasterImage)
deriving Repr, DecidableEq

/-- Result of `document.createElement('canvas')`: a blank canvas (default
300×150 surface, nothing drawn). -/
def CanvasState.fresh : CanvasState :=
  { width := 300, height := 150, drawn := none }

/-- Running `drawFrameToCanvas(canvas, img)` on a canvas: the canvas is
resized to `outputSize × outputSize`, cleared to white and the image is
composed onto it; no part of the previous canvas state survives. -/
def drawFrameOn (p : LayoutParams) (img : RasterImage) (_c : CanvasState) :
    CanvasState :=
  { width := p.outputSize, height := p.outputSize, drawn := some (p, img) }

/-- The canvas contents produced by one `drawToBlob` call. -/
def composedCanvas (p : LayoutParams) (img : RasterImage) : CanvasState :=
  drawFrameOn p img CanvasState.fresh

/-- An encoded image blob: a MIME tag and a byte sequence. -/
structure Blob where
  mime : String
  bytes : List ℕ
deriving Repr, DecidableEq

/-- The browser primitive `canvas.toBlob(cb, mime, quality)`, abstracted:
a function from the canvas contents, MIME type and quality factor to
`some` encoded blob, or `none` when encoding fails (the callback receives
`null`). Theorems quantify over the encoder. -/
def Encoder : Type :=
  CanvasState → String → ℚ → Option Blob

/-- Shallow embedding of `drawToBlob` (lines 74–83). A new canvas is
created (`document.createElement('canvas')` appends a fresh canvas to the
store), `drawFrameToCanvas` draws on it, and `canvas.toBlob` encodes it
with the format's MIME type at quality `0.95`. Returns the extended store
and the encoder's result. -/
def drawToBlob (enc : Encoder) (p : LayoutParams) (img : RasterImage)
    (store : List CanvasState) : List CanvasState × Option Blob :=
  let canvas := CanvasState.fresh
  let canvas2 := drawFrameOn p img canvas
  (store ++ [canvas2], enc canvas2 (mimeOf p.format) (95 / 100))

/-! File naming and the batch exporter. -/

/-- JavaScript `s.replace(/\.[^/.]+$/, '')`: remove the final `'.'` and
the nonempty run of non-`'.'`, non-`'/'` characters after it, when the
string ends that way; otherwise leave the string unchanged. -/
def stripExt (s : String) : String :=
  let rev := s.data.reverse
  let ext := rev.takeWhile (fun c => c != '.' && c != '/')
  match rev.drop ext.length with
  | '.' :: rest => if ext.isEmpty then s else ⟨rest.reverse⟩
  | _ => s

/-- The entry name used by `downloadZip` (line 113):
`file.name.replace(/\.[^/.]+$/, '') + '.' + ext`, with no fallback for an
empty stripped name. -/
def zipEntryName (fileName : String) (fmt : OutputFormat) : String :=
  stripExt fileName ++ "." ++ extOf fmt

/-- The download name used by `downloadSingle` (line 99):
`(fileName.replace(/\.[^/.]+$/, '') || 'framed-image') + '.' + ext`;
the empty string is the only falsy string, so an empty stripped name
falls back to `'framed-image'`. -/
def downloadSingleName (fileName : String) (fmt : OutputFormat) : String :=
  (if stripExt fileName = "" then "framed-image" else stripExt fileName)
    ++ "." ++ extOf fmt

/-- One selected file: its `file.name` and decoded `image`. -/
structure ExportItem where
  name : String
  image : RasterImage
deriving Repr, DecidableEq

/-- Embedding of JSZip `zip.file(name, blob)`: entries are keyed by name; adding an
existing name overwrites that entry in place (last writer wins), a new
name is appended. -/
def zipFile : List (String × Blob) → String → Blob → List (String × Blob)
  | [], n, b => [(n, b)]
  | e :: es, n, b => if e.1 = n then (n, b) :: es else e :: zipFile es n b

/-- The `for (const { file, image } of imageList)` loop of `downloadZip`
(lines 109–114), one item at a time: draw the image to a blob on a fresh
canvas, skip the item when the blob is `null` (`if (!blob) continue`),
otherwise add it to the zip under its stripped-name entry. The accumulator
carries the canvas store and the zip entries built so far. -/
def downloadZipLoop (enc : Encoder) (p : LayoutParams) :
    List ExportItem → List CanvasState × List (String × Blob) →
      List CanvasState × List (String × Blob)
  | [], acc => acc
  | it :: rest, acc =>
    let res := drawToBlob enc p it.image acc.1
    match res.2 with
    | none => downloadZipLoop enc p rest (res.1, acc.2)
    | some b =>
      downloadZipLoop enc p rest
        (res.1, zipFile acc.2 (zipEntryName it.name p.format) b)

/-- Shallow embedding of `downloadZip` (lines 105–120): run the loop over
all items starting from an empty zip; the result is the canvas store and
the named entries of the generated archive. -/
def downloadZip (enc : Encoder) (p : LayoutParams) (items : List ExportItem)
    (store : List CanvasState) : List CanvasState × List (String × Blob) :=
  downloadZipLoop enc p items (store, [])

/-- What the auto-download effect hands to the browser. -/
inductive ExportOutput where
  | noOutput
  | single (fileName : String) (blob : Option Blob)
  | archive (archiveName : String) (entries : List (String × Blob))
deriving Repr, DecidableEq

/-- Number of named entries in an archive output (`0` otherwise). -/
def ExportOutput.numEntries : ExportOutput → ℕ
  | .archive _ es => es.length
  | _ => 0

/-- Whether the output is a single-file download. -/
def ExportOutput.isSingle : ExportOutput → Bool
  | .single _ _ => true
  | _ => false

/-- Whether the output is an archive download. -/
def ExportOutput.isArchive : ExportOutput → Bool
  | .archive _ _ => true
  | _ => false

/-- Shallow embedding of `downloadSingle` (lines 93–102): compose the one
image, and hand the blob to the browser under the stripped name with the
`'framed-image'` fallback. -/
def downloadSingle (enc : Encoder) (p : LayoutParams) (fileName : String)
    (img : RasterImage) (store : List CanvasState) :
    List CanvasState × ExportOutput :=
  let res := drawToBlob enc p img store
  (res.1, .single (downloadSingleName fileName p.format) res.2)

/-- Shallow embedding of the auto-download effect (lines 123–136):
`images.length === 0` → nothing; `=== 1` → `downloadSingle` with the
item's file name; otherwise → `downloadZip`, saved as
`'framed-images.zip'` (line 116). -/
def exportAll (enc : Encoder) (p : LayoutParams) (items : List ExportItem)
    (store : List CanvasState) : List CanvasState × ExportOutput :=
  match items with
  | [] => (store, .noOutput)
  | [it] => downloadSingle enc p it.name it.image store
  | _ =>
    let res := downloadZip enc p items store
    (res.1, .archive "framed-images.zip" res.2)

/-- An always-succeeding concrete encoder, used to instantiate theorems:
it records the MIME tag and the canvas dimensions. -/
def okEncoder : Encoder :=
  fun c m _ => some ⟨m, [c.width, c.height]⟩

/-- A concrete encoder that fails exactly on canvases whose drawn image is
1×1, used to instantiate the failure-handling theorems. -/
def failOn1x1Encoder : Encoder :=
  fun c m _ =>
    if c.drawn.map Prod.snd = some ⟨1, 1⟩ then none else some ⟨m, []⟩

/-! Basic facts about the layout shared by several theorems. -/

lemma layout_innerSize_eq (p : LayoutParams) (img : RasterImage) :
    (drawFrameToCanvas p img).innerSize = innerSizeOf p.framePct p.outputSize :=
  rfl

lemma layout_scale_eq (p : LayoutParams) (img : RasterImage) :
    (drawFrameToCanvas p img).scale =
      min (((drawFrameToCanvas p img).innerSize : ℚ) / img.width)
        (((drawFrameToCanvas p img).innerSize : ℚ) / img.height) :=
  rfl

lemma layout_w_eq (p : LayoutParams) (img : RasterImage) :
    (drawFrameToCanvas p img).w = (img.width : ℚ) * (drawFrameToCanvas p img).scale :=
  rfl

lemma layout_h_eq (p : LayoutParams) (img : RasterImage) :
    (drawFrameToCanvas p img).h = (img.height : ℚ) * (drawFrameToCanvas p img).scale :=
  rfl

lemma layout_x_eq (p : LayoutParams) (img : RasterImage) :
    (drawFrameToCanvas p img).x = ((drawFrameToCanvas p img).border : ℚ) +
      (((drawFrameToCanvas p img).innerSize : ℚ) - (drawFrameToCanvas p img).w) / 2 :=
  rfl

lemma layout_y_eq (p : LayoutParams) (img : RasterImage) :
    (drawFrameToCanvas p img).y = ((drawFrameToCanvas p img).border : ℚ) +
      (((drawFrameToCanvas p img).innerSize : ℚ) - (drawFrameToCanvas p img).h) / 2 :=
  rfl

/-- The interior square relation `innerSize = outputSize - 2·border`, over `ℚ`. -/
lemma layout_innerSize_cast (p : LayoutParams) (img : RasterImage) :
    ((drawFrameToCanvas p img).innerSize : ℚ) =
      (p.outputSize : ℚ) - 2 * ((drawFrameToCanvas p img).border : ℚ) := by
  have hb : (drawFrameToCanvas p img).border = borderOf p.framePct p.outputSize := rfl
  rw [layout_innerSize_eq, innerSizeOf, hb]
  push_cast
  ring

/-- When the interior is positive and the image has positive dimensions, the
uniform scale factor is positive. -/
lemma layout_scale_pos (p : LayoutParams) (img : RasterImage)
    (hw : 0 < img.width) (hh : 0 < img.height)
    (hI : 0 < (drawFrameToCanvas p img).innerSize) :
    0 < (drawFrameToCanvas p img).scale := by
  have hW : (0 : ℚ) < (img.width : ℚ) := by exact_mod_cast hw
  have hH : (0 : ℚ) < (img.height : ℚ) := by exact_mod_cast hh
  have hIq : (0 : ℚ) < ((drawFrameToCanvas p img).innerSize : ℚ) := by exact_mod_cast hI
  rw [layout_scale_eq]
  exact lt_min (div_pos hIq hW) (div_pos hIq hH)

/-- The drawn width never exceeds the interior. -/
lemma layout_w_le_inner (p : LayoutParams) (img : RasterImage)
    (hw : 0 < img.width) :
    (drawFrameToCanvas p img).w ≤ ((drawFrameToCanvas p img).innerSize : ℚ) := by
  have hW : (0 : ℚ) < (img.width : ℚ) := by exact_mod_cast hw
  rw [layout_w_eq, layout_scale_eq]
  calc (img.width : ℚ) *
      min (((drawFrameToCanvas p img).innerSize : ℚ) / img.width)
        (((drawFrameToCanvas p img).innerSize : ℚ) / img.height)
      ≤ (img.width : ℚ) * (((drawFrameToCanvas p img).innerSize : ℚ) / img.width) :=
        mul_le_mul_of_nonneg_left (min_le_left _ _) hW.le
    _ = ((drawFrameToCanvas p img).innerSize : ℚ) := by
        field_simp

/-- The drawn height never exceeds the interior. -/
lemma layout_h_le_inner (p : LayoutParams) (img : RasterImage)
    (hh : 0 < img.height) :
    (drawFrameToCanvas p img).h ≤ ((drawFrameToCanvas p img).innerSize : ℚ) := by
  have hH : (0 : ℚ) < (img.height : ℚ) := by exact_mod_cast hh
  rw [layout_h_eq, layout_scale_eq]
  calc (img.height : ℚ) *
      min (((drawFrameToCanvas p img).innerSize : ℚ) / img.width)
        (((drawFrameToCanvas p img).innerSize : ℚ) / img.height)
      ≤ (img.height : ℚ) * (((drawFrameToCanvas p img).innerSize : ℚ) / img.height) :=
        mul_le_mul_of_nonneg_left (min_le_right _ _) hH.le
    _ = ((drawFrameToCanvas p img).innerSize : ℚ) := by
        field_simp

lemma layout_w_nonneg (p : LayoutParams) (img : RasterImage)
    (hw : 0 < img.width) (hh : 0 < img.height)
    (hI : 0 < (drawFrameToCanvas p img).innerSize) :
    0 ≤ (drawFrameToCanvas p img).w := by
  have hW : (0 : ℚ) ≤ (img.width : ℚ) := by positivity
  rw [layout_w_eq]
  exact mul_nonneg hW (layout_scale_pos p img hw hh hI).le

lemma layout_h_nonneg (p : LayoutParams) (img : RasterImage)
    (hw : 0 < img.width) (hh : 0 < img.height)
    (hI : 0 < (drawFrameToCanvas p img).innerSize) :
    0 ≤ (drawFrameToCanvas p img).h := by
  have hH : (0 : ℚ) ≤ (img.height : ℚ) := by positivity
  rw [layout_h_eq]
  exact mul_nonneg hH (layout_scale_pos p img hw hh hI).le

/-- C1: for every image with positive integer width and height and every
`LayoutParams`, `drawFrameToCanvas` computes `border = round(framePercent/100
* outputSize)`, `interior = outputSize - 2*border`, `scale =
min(interior/width, interior/height)`, drawn size `w = width*scale`,
`h = height*scale`, placement `x = border + (interior - w)/2`,
`y = border + (interior - h)/2`; and for a 4000×3000 image with
`framePercent = 8` and `outputSize = 2000` this yields `border = 160`,
`interior = 1680`, `scale = 0.42`, drawn size `1680×1260` and placement
`x = 160`, `y = 370`. -/
theorem claim1_compose_formulas (img : RasterImage) (p : LayoutParams)
    (hw : 0 < img.width) (hh : 0 < img.height) :
    ((drawFrameToCanvas p img).border = jsRound (p.framePct / 100 * p.outputSize) ∧
      (drawFrameToCanvas p img).innerSize =
        (p.outputSize : ℤ) - 2 * (drawFrameToCanvas p img).border ∧
      (drawFrameToCanvas p img).scale =
        min (((drawFrameToCanvas p img).innerSize : ℚ) / img.width)
          (((drawFrameToCanvas p img).innerSize : ℚ) / img.height) ∧
      (drawFrameToCanvas p img).w = (img.width : ℚ) * (drawFrameToCanvas p img).scale ∧
      (drawFrameToCanvas p img).h = (img.height : ℚ) * (drawFrameToCanvas p img).scale ∧
      (drawFrameToCanvas p img).x = ((drawFrameToCanvas p img).border : ℚ) +
        (((drawFrameToCanvas p img).innerSize : ℚ) - (drawFrameToCanvas p img).w) / 2 ∧
      (drawFrameToCanvas p img).y = ((drawFrameToCanvas p img).border : ℚ) +
        (((drawFrameToCanvas p img).innerSize : ℚ) - (drawFrameToCanvas p img).h) / 2) ∧
    ((drawFrameToCanvas ⟨8, 2000, .png⟩ ⟨4000, 3000⟩).border = 160 ∧
      (drawFrameToCanvas ⟨8, 2000, .png⟩ ⟨4000, 3000⟩).innerSize = 1680 ∧
      (drawFrameToCanvas ⟨8, 2000, .png⟩ ⟨4000, 3000⟩).scale = 0.42 ∧
      (drawFrameToCanvas ⟨8, 2000, .png⟩ ⟨4000, 3000⟩).w = 1680 ∧
      (drawFrameToCanvas ⟨8, 2000, .png⟩ ⟨4000, 3000⟩).h = 1260 ∧
      (drawFrameToCanvas ⟨8, 2000, .png⟩ ⟨4000, 3000⟩).x = 160 ∧
      (drawFrameToCanvas ⟨8, 2000, .png⟩ ⟨4000, 3000⟩).y = 370) := by
  refine ⟨⟨rfl, ?_, layout_scale_eq p img, layout_w_eq p img, layout_h_eq p img,
    layout_x_eq p img, layout_y_eq p img⟩, ?_⟩
  · have hb : (drawFrameToCanvas p img).border = borderOf p.framePct p.outputSize := rfl
    rw [layout_innerSize_eq, innerSizeOf, hb]
    ring
  · norm_num [drawFrameToCanvas, borderOf, innerSizeOf, jsRound, min_def]

/-- Instantiation of `claim1_compose_formulas` at the concrete 4000×3000
scenario. -/
theorem claim1_compose_formulas_witness :
    0 < (4000 : ℕ) ∧ 0 < (3000 : ℕ) ∧
    (drawFrameToCanvas ⟨8, 2000, .png⟩ ⟨4000, 3000⟩).scale = 0.42 := by
  refine ⟨by norm_num, by norm_num, ?_⟩
  exact (claim1_compose_formulas ⟨4000, 3000⟩ ⟨8, 2000, .png⟩
    (by norm_num) (by norm_num)).2.2.2.1

/-- C2: the canvas produced by `drawFrameToCanvas` is always exactly
`outputSize × outputSize`, independently of the source image's
dimensions. -/
theorem claim2_output_square (p : LayoutParams) (img : RasterImage)
    (hw : 0 < img.width) (hh : 0 < img.height) :
    (drawFrameToCanvas p img).canvasWidth = p.outputSize ∧
    (drawFrameToCanvas p img).canvasHeight = p.outputSize :=
  ⟨rfl, rfl⟩

/-- Instantiation of `claim2_output_square` at a concrete input. -/
theorem claim2_output_square_witness :
    0 < (4000 : ℕ) ∧ 0 < (3000 : ℕ) ∧
    (drawFrameToCanvas ⟨8, 2000, .png⟩ ⟨4000, 3000⟩).canvasWidth = 2000 := by
  exact ⟨by norm_num, by norm_num,
    (claim2_output_square ⟨8, 2000, .png⟩ ⟨4000, 3000⟩ (by norm_num) (by norm_num)).1⟩

/-- C3: with a positive interior, the drawn rectangle's aspect ratio `w/h`
equals the source image's aspect ratio `width/height` — the same uniform
scale factor is applied to both axes. -/
theorem claim3_aspect_ratio_preserved (p : LayoutParams) (img : RasterImage)
    (hw : 0 < img.width) (hh : 0 < img.height)
    (hI : 0 < (drawFrameToCanvas p img).innerSize) :
    (drawFrameToCanvas p img).w / (drawFrameToCanvas p img).h =
      (img.width : ℚ) / (img.height : ℚ) := by
  have hs := layout_scale_pos p img hw hh hI
  rw [layout_w_eq, layout_h_eq, mul_comm (img.width : ℚ), mul_comm (img.height : ℚ)]
  exact mul_div_mul_left _ _ (ne_of_gt hs)

/-- Instantiation of `claim3_aspect_ratio_preserved` at the 4000×3000
scenario. -/
theorem claim3_aspect_ratio_preserved_witness :
    0 < (4000 : ℕ) ∧ 0 < (3000 : ℕ) ∧
    0 < (drawFrameToCanvas ⟨8, 2000, .png⟩ ⟨4000, 3000⟩).innerSize ∧
    (drawFrameToCanvas ⟨8, 2000, .png⟩ ⟨4000, 3000⟩).w /
        (drawFrameToCanvas ⟨8, 2000, .png⟩ ⟨4000, 3000⟩).h =
      ((4000 : ℕ) : ℚ) / ((3000 : ℕ) : ℚ) := by
  have hI : 0 < (drawFrameToCanvas ⟨8, 2000, .png⟩ ⟨4000, 3000⟩).innerSize := by
    norm_num [drawFrameToCanvas, innerSizeOf, borderOf, jsRound]
  exact ⟨by norm_num, by norm_num, hI,
    claim3_aspect_ratio_preserved ⟨8, 2000, .png⟩ ⟨4000, 3000⟩
      (by norm_num) (by norm_num) hI⟩

/-- C4: with positive image dimensions and a positive interior, the drawn
rectangle `[x, x+w] × [y, y+h]` lies inside the interior square
`[border, outputSize - border]²`, and hence every point of the outer
border-pixel margin of the canvas is still the solid white fill after
compositing. -/
theorem claim4_drawn_inside_interior (p : LayoutParams) (img : RasterImage)
    (hw : 0 < img.width) (hh : 0 < img.height)
    (hI : 0 < (drawFrameToCanvas p img).innerSize) :
    (((drawFrameToCanvas p img).border : ℚ) ≤ (drawFrameToCanvas p img).x ∧
      (drawFrameToCanvas p img).x + (drawFrameToCanvas p img).w ≤
        (p.outputSize : ℚ) - ((drawFrameToCanvas p img).border : ℚ) ∧
      ((drawFrameToCanvas p img).border : ℚ) ≤ (drawFrameToCanvas p img).y ∧
      (drawFrameToCanvas p img).y + (drawFrameToCanvas p img).h ≤
        (p.outputSize : ℚ) - ((drawFrameToCanvas p img).border : ℚ)) ∧
    ∀ i j : ℚ,
      (i < ((drawFrameToCanvas p img).border : ℚ) ∨
        (p.outputSize : ℚ) - ((drawFrameToCanvas p img).border : ℚ) ≤ i ∨
        j < ((drawFrameToCanvas p img).border : ℚ) ∨
        (p.outputSize : ℚ) - ((drawFrameToCanvas p img).border : ℚ) ≤ j) →
      canvasPixel (drawFrameToCanvas p img) i j = Pixel.white := by
  have hwle := layout_w_le_inner p img hw
  have hhle := layout_h_le_inner p img hh
  have hwn := layout_w_nonneg p img hw hh hI
  have hhn := layout_h_nonneg p img hw hh hI
  have hcast := layout_innerSize_cast p img
  have hx1 : ((drawFrameToCanvas p img).border : ℚ) ≤ (drawFrameToCanvas p img).x := by
    rw [layout_x_eq]
    linarith
  have hx2 : (drawFrameToCanvas p img).x + (drawFrameToCanvas p img).w ≤
      (p.outputSize : ℚ) - ((drawFrameToCanvas p img).border : ℚ) := by
    rw [layout_x_eq]
    linarith
  have hy1 : ((drawFrameToCanvas p img).border : ℚ) ≤ (drawFrameToCanvas p img).y := by
    rw [layout_y_eq]
    linarith
  have hy2 : (drawFrameToCanvas p img).y + (drawFrameToCanvas p img).h ≤
      (p.outputSize : ℚ) - ((drawFrameToCanvas p img).border : ℚ) := by
    rw [layout_y_eq]
    linarith
  refine ⟨⟨hx1, hx2, hy1, hy2⟩, ?_⟩
  intro i j hm
  have hnot : ¬((drawFrameToCanvas p img).x ≤ i ∧
      i < (drawFrameToCanvas p img).x + (drawFrameToCanvas p img).w ∧
      (drawFrameToCanvas p img).y ≤ j ∧
      j < (drawFrameToCanvas p img).y + (drawFrameToCanvas p img).h) := by
    rintro ⟨c1, c2, c3, c4⟩
    rcases hm with hm | hm | hm | hm <;> linarith
  simp only [canvasPixel, if_neg hnot]

/-- Instantiation of `claim4_drawn_inside_interior` at the 4000×3000
scenario, evaluating the canvas at the corner point `(0, 0)`. -/
theorem claim4_drawn_inside_interior_witness :
    0 < (4000 : ℕ) ∧ 0 < (3000 : ℕ) ∧
    0 < (drawFrameToCanvas ⟨8, 2000, .png⟩ ⟨4000, 3000⟩).innerSize ∧
    canvasPixel (drawFrameToCanvas ⟨8, 2000, .png⟩ ⟨4000, 3000⟩) 0 0 = Pixel.white := by
  have hI : 0 < (drawFrameToCanvas ⟨8, 2000, .png⟩ ⟨4000, 3000⟩).innerSize := by
    norm_num [drawFrameToCanvas, innerSizeOf, borderOf, jsRound]
  refine ⟨by norm_num, by norm_num, hI, ?_⟩
  exact (claim4_drawn_inside_interior ⟨8, 2000, .png⟩ ⟨4000, 3000⟩
      (by norm_num) (by norm_num) hI).2 0 0
    (Or.inl (by norm_num [drawFrameToCanvas, borderOf, jsRound]))

/-- C5: for every integer `framePercent` in the slider range 2–20 and every
output size in the allowed set `{1200, 1600, 2000, 3000}`, the computed
interior `outputSize - 2*round(framePercent/100 * outputSize)` is strictly
positive, so the degenerate-interior case is unreachable. -/
theorem claim5_interior_positive (pct : ℕ) (h2 : 2 ≤ pct) (h20 : pct ≤ 20)
    (s : ℕ) (hs : s = 1200 ∨ s = 1600 ∨ s = 2000 ∨ s = 3000)
    (fmt : OutputFormat) (img : RasterImage) :
    0 < (drawFrameToCanvas ⟨(pct : ℚ), s, fmt⟩ img).innerSize := by
  have hb : ((borderOf (pct : ℚ) s : ℤ) : ℚ) ≤ (pct : ℚ) / 100 * (s : ℚ) + 1/2 := by
    have hfl : borderOf (pct : ℚ) s = ⌊(pct : ℚ) / 100 * (s : ℚ) + 1/2⌋ := rfl
    rw [hfl]
    exact Int.floor_le _
  have hp : (pct : ℚ) ≤ 20 := by exact_mod_cast h20
  have hs1200 : (1200 : ℚ) ≤ (s : ℚ) := by
    rcases hs with rfl | rfl | rfl | rfl <;> norm_num
  have hmul : (pct : ℚ) / 100 * (s : ℚ) ≤ 20 / 100 * (s : ℚ) := by
    apply mul_le_mul_of_nonneg_right _ (by positivity)
    linarith
  suffices hq : (0 : ℚ) < (((s : ℤ) - borderOf (pct : ℚ) s * 2 : ℤ) : ℚ) by
    have hrw : (drawFrameToCanvas ⟨(pct : ℚ), s, fmt⟩ img).innerSize =
        (s : ℤ) - borderOf (pct : ℚ) s * 2 := rfl
    rw [hrw]
    exact_mod_cast hq
  push_cast
  linarith

/-- Instantiation of `claim5_interior_positive` at `framePercent = 8`,
`outputSize = 2000`. -/
theorem claim5_interior_positive_witness :
    (2 : ℕ) ≤ 8 ∧ (8 : ℕ) ≤ 20 ∧
    ((2000 : ℕ) = 1200 ∨ (2000 : ℕ) = 1600 ∨ (2000 : ℕ) = 2000 ∨ (2000 : ℕ) = 3000) ∧
    0 < (drawFrameToCanvas ⟨((8 : ℕ) : ℚ), 2000, .png⟩ ⟨4000, 3000⟩).innerSize := by
  exact ⟨by norm_num, by norm_num, by norm_num,
    claim5_interior_positive 8 (by norm_num) (by norm_num) 2000 (by norm_num)
      .png ⟨4000, 3000⟩⟩

/-- C6, counterexample to the claim as stated: `'photo.jpg'` and
`'photo.png'` are two distinctly-named items, yet because both strip to
`'photo'` and receive the same output extension, the archive produced for
them (with an encoder that succeeds on every item) contains one entry,
not two. -/
theorem claim6_distinct_names_refuted :
    ("photo.jpg" : String) ≠ "photo.png" ∧
    (exportAll (fun c m _ => some ⟨m, [c.width]⟩) ⟨8, 2000, .jpeg⟩
        [⟨"photo.jpg", ⟨4000, 3000⟩⟩, ⟨"photo.png", ⟨4000, 3000⟩⟩] []).2.numEntries = 1 := by
  exact ⟨by decide, rfl⟩

/-- C6 (amended): `exportAll` dispatches on the item count — the empty
collection produces no output; a single item produces a single download;
two or more items produce exactly one archive; and for two items whose
encodes succeed and whose entry names (after extension-stripping) differ,
that archive contains exactly two named entries. -/
theorem claim6_export_dispatch (enc : Encoder) (p : LayoutParams)
    (store : List CanvasState) (it i1 i2 : ExportItem) (b1 b2 : Blob)
    (rest : List ExportItem)
    (henc1 : enc (composedCanvas p i1.image) (mimeOf p.format) (95 / 100) = some b1)
    (henc2 : enc (composedCanvas p i2.image) (mimeOf p.format) (95 / 100) = some b2)
    (hn : zipEntryName i1.name p.format ≠ zipEntryName i2.name p.format) :
    (exportAll enc p [] store).2 = ExportOutput.noOutput ∧
    (exportAll enc p [it] store).2.isSingle = true ∧
    (exportAll enc p (i1 :: i2 :: rest) store).2.isArchive = true ∧
    (exportAll enc p [i1, i2] store).2 =
      ExportOutput.archive "framed-images.zip"
        [(zipEntryName i1.name p.format, b1), (zipEntryName i2.name p.format, b2)] := by
  refine ⟨rfl, rfl, rfl, ?_⟩
  simp only [composedCanvas] at henc1 henc2
  simp [exportAll, downloadZip, downloadZipLoop, drawToBlob,
    zipFile, henc1, henc2, hn]

/-- Instantiation of `claim6_export_dispatch` with the always-succeeding
encoder and the distinctly-stripped names `'a.jpg'`, `'b.jpg'`. -/
theorem claim6_export_dispatch_witness :
    okEncoder (composedCanvas ⟨8, 2000, .jpeg⟩ ⟨1, 1⟩) (mimeOf OutputFormat.jpeg) (95 / 100) =
      some ⟨"image/jpeg", [2000, 2000]⟩ ∧
    okEncoder (composedCanvas ⟨8, 2000, .jpeg⟩ ⟨2, 2⟩) (mimeOf OutputFormat.jpeg) (95 / 100) =
      some ⟨"image/jpeg", [2000, 2000]⟩ ∧
    zipEntryName "a.jpg" OutputFormat.jpeg ≠ zipEntryName "b.jpg" OutputFormat.jpeg ∧
    (exportAll okEncoder ⟨8, 2000, .jpeg⟩ [⟨"a.jpg", ⟨1, 1⟩⟩, ⟨"b.jpg", ⟨2, 2⟩⟩] []).2 =
      ExportOutput.archive "framed-images.zip"
        [(zipEntryName "a.jpg" OutputFormat.jpeg, ⟨"image/jpeg", [2000, 2000]⟩),
          (zipEntryName "b.jpg" OutputFormat.jpeg, ⟨"image/jpeg", [2000, 2000]⟩)] := by
  refine ⟨rfl, rfl, by decide, ?_⟩
  exact (claim6_export_dispatch okEncoder ⟨8, 2000, .jpeg⟩ []
    ⟨"a.jpg", ⟨1, 1⟩⟩ ⟨"a.jpg", ⟨1, 1⟩⟩ ⟨"b.jpg", ⟨2, 2⟩⟩
    ⟨"image/jpeg", [2000, 2000]⟩ ⟨"image/jpeg", [2000, 2000]⟩ []
    rfl rfl (by decide)).2.2.2

/-- C7, counterexample to the claim as stated: the single-item output for
the source name `'.jpg'` is not named by stripping the extension and
appending the format extension — the code falls back to `'framed-image'`
instead. -/
theorem claim7_single_name_refuted :
    downloadSingleName ".jpg" .png ≠ stripExt ".jpg" ++ "." ++ extOf .png := by
  decide

/-- C7 (amended): output files are named by stripping the source name's
final extension and appending `'.'` plus the format extension (`'jpg'` for
JPEG, `'png'` for PNG) — for the single-item path provided the stripped
name is nonempty (otherwise it falls back to `'framed-image'`); every
multi-item archive is named `'framed-images.zip'`; and when two items'
entry names collide after extension-stripping the archive is not
deduplicated — the later item's bytes win under that entry name. -/
theorem claim7_output_naming (name : String) (fmt : OutputFormat)
    (hne : stripExt name ≠ "")
    (enc : Encoder) (p : LayoutParams) (store : List CanvasState)
    (i1 i2 : ExportItem) (rest : List ExportItem) (b1 b2 : Blob)
    (henc1 : enc (composedCanvas p i1.image) (mimeOf p.format) (95 / 100) = some b1)
    (henc2 : enc (composedCanvas p i2.image) (mimeOf p.format) (95 / 100) = some b2)
    (hcol : zipEntryName i1.name p.format = zipEntryName i2.name p.format) :
    extOf .jpeg = "jpg" ∧ extOf .png = "png" ∧
    downloadSingleName name fmt = stripExt name ++ "." ++ extOf fmt ∧
    zipEntryName name fmt = stripExt name ++ "." ++ extOf fmt ∧
    (exportAll enc p (i1 :: i2 :: rest) store).2 =
      ExportOutput.archive "framed-images.zip"
        (downloadZip enc p (i1 :: i2 :: rest) store).2 ∧
    (downloadZip enc p [i1, i2] store).2 = [(zipEntryName i2.name p.format, b2)] := by
  refine ⟨rfl, rfl, ?_, rfl, rfl, ?_⟩
  · simp [downloadSingleName, hne]
  · simp only [composedCanvas] at henc1 henc2
    simp [downloadZip, downloadZipLoop, drawToBlob, zipFile,
      henc1, henc2, hcol]

/-- Instantiation of `claim7_output_naming` at the name `'photo.jpg'` and
the colliding pair `'a.jpg'` / `'a.png'` exported as JPEG. -/
theorem claim7_output_naming_witness :
    stripExt "photo.jpg" ≠ "" ∧
    okEncoder (composedCanvas ⟨8, 2000, .jpeg⟩ ⟨1, 1⟩) (mimeOf OutputFormat.jpeg) (95 / 100) =
      some ⟨"image/jpeg", [2000, 2000]⟩ ∧
    okEncoder (composedCanvas ⟨8, 2000, .jpeg⟩ ⟨2, 2⟩) (mimeOf OutputFormat.jpeg) (95 / 100) =
      some ⟨"image/jpeg", [2000, 2000]⟩ ∧
    zipEntryName "a.jpg" OutputFormat.jpeg = zipEntryName "a.png" OutputFormat.jpeg ∧
    (downloadZip okEncoder ⟨8, 2000, .jpeg⟩ [⟨"a.jpg", ⟨1, 1⟩⟩, ⟨"a.png", ⟨2, 2⟩⟩] []).2 =
      [(zipEntryName "a.png" OutputFormat.jpeg, ⟨"image/jpeg", [2000, 2000]⟩)] := by
  refine ⟨by decide, rfl, rfl, by decide, ?_⟩
  exact (claim7_output_naming "photo.jpg" .png (by decide)
    okEncoder ⟨8, 2000, .jpeg⟩ [] ⟨"a.jpg", ⟨1, 1⟩⟩ ⟨"a.png", ⟨2, 2⟩⟩ []
    ⟨"image/jpeg", [2000, 2000]⟩ ⟨"image/jpeg", [2000, 2000]⟩
    rfl rfl (by decide)).2.2.2.2.2

/-- C8: in the batch path, an item whose encode fails (the blob is `null`)
is silently skipped — the archive is still produced and contains only the
successful items' entries, with no error output and no record of the
dropped item. -/
theorem claim8_failed_item_skipped (enc : Encoder) (p : LayoutParams)
    (store : List CanvasState) (i1 i2 : ExportItem) (b2 : Blob)
    (henc1 : enc (composedCanvas p i1.image) (mimeOf p.format) (95 / 100) = none)
    (henc2 : enc (composedCanvas p i2.image) (mimeOf p.format) (95 / 100) = some b2) :
    (exportAll enc p [i1, i2] store).2 =
      ExportOutput.archive "framed-images.zip" [(zipEntryName i2.name p.format, b2)] := by
  simp only [composedCanvas] at henc1 henc2
  simp [exportAll, downloadZip, downloadZipLoop, drawToBlob,
    zipFile, henc1, henc2]

/-- Instantiation of `claim8_failed_item_skipped` with the encoder that
fails on the 1×1 image of item `'a.jpg'` and succeeds on `'b.jpg'`. -/
theorem claim8_failed_item_skipped_witness :
    failOn1x1Encoder (composedCanvas ⟨8, 2000, .jpeg⟩ ⟨1, 1⟩) (mimeOf OutputFormat.jpeg)
      (95 / 100) = none ∧
    failOn1x1Encoder (composedCanvas ⟨8, 2000, .jpeg⟩ ⟨2, 2⟩) (mimeOf OutputFormat.jpeg)
      (95 / 100) = some ⟨"image/jpeg", []⟩ ∧
    (exportAll failOn1x1Encoder ⟨8, 2000, .jpeg⟩
        [⟨"a.jpg", ⟨1, 1⟩⟩, ⟨"b.jpg", ⟨2, 2⟩⟩] []).2 =
      ExportOutput.archive "framed-images.zip"
        [(zipEntryName "b.jpg" OutputFormat.jpeg, ⟨"image/jpeg", []⟩)] := by
  refine ⟨by decide, by decide, ?_⟩
  exact claim8_failed_item_skipped failOn1x1Encoder ⟨8, 2000, .jpeg⟩ []
    ⟨"a.jpg", ⟨1, 1⟩⟩ ⟨"b.jpg", ⟨2, 2⟩⟩ ⟨"image/jpeg", []⟩ (by decide) (by decide)

/-- C9: `drawToBlob` is a pure, deterministic function of the image and
the parameters — its blob output is independent of the pre-existing canvas
store (each call draws on a freshly created, independent canvas and leaves
every existing canvas untouched), and it equals the deterministic encoding
of the composed canvas, so two calls with identical inputs produce
identical (for PNG, byte-identical) output. -/
theorem claim9_compose_pure (enc : Encoder) (p : LayoutParams)
    (img : RasterImage) (s1 s2 : List CanvasState) :
    (drawToBlob enc p img s1).2 = (drawToBlob enc p img s2).2 ∧
    (drawToBlob enc p img s1).1 = s1 ++ [composedCanvas p img] ∧
    (drawToBlob enc p img s1).2 = enc (composedCanvas p img) (mimeOf p.format) (95 / 100) :=
  ⟨rfl, rfl, rfl⟩

/-- C10: when stripping the extension leaves an empty name, the
single-item download falls back to the base name `'framed-image'`, while
the archive entry name gets no fallback and is just `'.'` plus the output
extension. -/
theorem claim10_empty_stem_fallback (name : String) (fmt : OutputFormat)
    (h : stripExt name = "") :
    downloadSingleName name fmt = "framed-image." ++ extOf fmt ∧
    zipEntryName name fmt = "." ++ extOf fmt := by
  refine ⟨?_, ?_⟩
  · simp only [downloadSingleName, h]
    cases fmt <;> rfl
  · simp only [zipEntryName, h]
    cases fmt <;> rfl

/-- Instantiation of `claim10_empty_stem_fallback` at the name `'.jpg'`. -/
theorem claim10_empty_stem_fallback_witness :
    stripExt ".jpg" = "" ∧
    downloadSingleName ".jpg" .png = "framed-image." ++ extOf .png ∧
    zipEntryName ".jpg" .png = "." ++ extOf .png := by
  have h : stripExt ".jpg" = "" := by decide
  exact ⟨h, (claim10_empty_stem_fallback ".jpg" .png h).1,
    (claim10_empty_stem_fallback ".jpg" .png h).2⟩

end FrameTiala
